import Mathlib

/-!
# Verification of the Brooks GF1xx EtherCAT control core

A shallow embedding of `src/main.py` (Brooks GF1xx mass-flow-controller
control system).  Python floats are modelled by `PyFloat`: either an exact
rational value, an infinity, or NaN; float arithmetic on finite values is
modelled exactly over `ℚ`.  Byte strings are lists of naturals; the
little-endian IEEE-754 binary32 decoding performed by struct.unpack
is embedded bit-exactly (finite binary32 values are exactly representable
in `ℚ`).  External effects (the pysoem bus boundary, the filesystem) are
modelled as explicit environment values describing the outcome of each call.
-/

namespace Brooks

/-- Model of a Python `float` value: an exact rational, ±∞, or NaN. -/
inductive PyFloat where
  | finite (q : ℚ)
  | inf
  | ninf
  | nan
deriving DecidableEq

namespace PyFloat

/-- Python `<` on floats: every comparison involving NaN is `False`. -/
def lt : PyFloat → PyFloat → Bool
  | finite a, finite b => decide (a < b)
  | finite _, inf => true
  | ninf, finite _ => true
  | ninf, inf => true
  | _, _ => false

/-- Python `min(a, b)`: returns `b` exactly when `b < a` (keeps `a` on NaN). -/
def pymin (a b : PyFloat) : PyFloat := if lt b a then b else a

/-- Python `max(a, b)`: returns `b` exactly when `a < b` (keeps `a` on NaN). -/
def pymax (a b : PyFloat) : PyFloat := if lt a b then b else a

/-- Multiplication of a Python float by a finite rational constant
(modelled exactly; the source only multiplies/divides by `100.0` and by the
finite `full_scale`). -/
def mulQ (a : PyFloat) (c : ℚ) : PyFloat :=
  match a with
  | finite q => finite (q * c)
  | inf => if 0 < c then inf else if c < 0 then ninf else nan
  | ninf => if 0 < c then ninf else if c < 0 then inf else nan
  | nan => nan

end PyFloat

/-- Little-endian 32-bit unsigned integer from the first four bytes. -/
def leU32 (bs : List ℕ) : ℕ :=
  bs.getD 0 0 + 256 * bs.getD 1 0 + 65536 * bs.getD 2 0 + 16777216 * bs.getD 3 0

/-- Decode an IEEE-754 binary32 bit pattern into a `PyFloat`.
Finite values (normal and subnormal) are exact rationals:
`(sign) · m · 2^(e-150)` with `m = 2^23 + frac` for normals. -/
def decodeF32bits (n : ℕ) : PyFloat :=
  let sign : ℕ := n / 2 ^ 31 % 2
  let ex : ℕ := n / 2 ^ 23 % 256
  let frac : ℕ := n % 2 ^ 23
  if ex = 255 then
    if frac = 0 then (if sign = 1 then .ninf else .inf) else .nan
  else
    let mag : ℚ := (if ex = 0 then (frac : ℚ) * 2 else ((2 ^ 23 + frac : ℕ) : ℚ) * 2 ^ ex) / 2 ^ 150
    if sign = 1 then .finite (-mag) else .finite mag

/-- Model of struct.unpack applied to the first four bytes: little-endian
binary32 decode. -/
def decodeF32LE (bs : List ℕ) : PyFloat := decodeF32bits (leU32 bs)

/-- Model of the `ControllerData` dataclass (`src/main.py`): one decoded sample.
`timestamp` is the `time.time()` capture instant, passed in as a parameter. -/
structure ControllerData where
  timestamp : ℚ
  flow : PyFloat
  pressure : PyFloat
  temperature : PyFloat
  setpoint : PyFloat
deriving DecidableEq

/-- Outcome of the one acyclic `slave.sdo_read` call used for scale
discovery: either a reply byte string, or an exception (unsupported
service, timeout, …). -/
inductive SdoReply where
  | ok (bs : List ℕ)
  | throws
deriving DecidableEq

/-- Mutable state of one `BrooksDriver`: the discovered full scale
(always a finite float in the source, hence a `ℚ`) and the stored
setpoint `_setpoint`. -/
structure DriverState where
  full_scale : ℚ
  setp : PyFloat
deriving DecidableEq

/-- Model of `BrooksDriver._read_full_scale`: accepts a ≥4-byte reply decoding to a
finite float within `[1.0, 1000000.0]`; every other outcome (short/missing
reply, out-of-range or non-finite value, exception) keeps the default.
Returns the resulting full scale and the boolean result of the method. -/
def read_full_scale (reply : SdoReply) (default_fs : ℚ) : ℚ × Bool :=
  match reply with
  | .throws => (default_fs, false)
  | .ok bs =>
    if 4 ≤ bs.length then
      match decodeF32LE bs with
      | .finite q => if 1 ≤ q ∧ q ≤ 1000000 then (q, true) else (default_fs, false)
      | _ => (default_fs, false)
    else (default_fs, false)

/-- Model of `BrooksDriver.__init__`: full scale defaults to `30000.0`, the setpoint
to `0.0`; scale discovery runs once and never aborts construction. -/
def mkDriver (reply : SdoReply) : DriverState :=
  { full_scale := (read_full_scale reply 30000).1, setp := .finite 0 }

/-- Model of `BrooksDriver.read_data`: `none` when the slave/input frame is absent or
shorter than 13 bytes; otherwise decodes bytes `[1:5)`, `[5:9)`, `[9:13)` as
little-endian floats and converts raw flow to engineering units by
`(raw / 100.0) * full_scale / 100.0`.  Total: never raises. -/
def read_data (now : ℚ) (input : Option (List ℕ)) (st : DriverState) :
    Option ControllerData :=
  match input with
  | none => none
  | some bs =>
    if bs.length < 13 then none
    else
      let flow_raw := decodeF32LE ((bs.drop 1).take 4)
      let pressure_psi := decodeF32LE ((bs.drop 5).take 4)
      let temperature := decodeF32LE ((bs.drop 9).take 4)
      let flow_percent := flow_raw.mulQ (1 / 100)
      let flow_sccm := (flow_percent.mulQ st.full_scale).mulQ (1 / 100)
      some { timestamp := now, flow := flow_sccm, pressure := pressure_psi,
             temperature := temperature, setpoint := st.setp }

/-- The clamp in `BrooksDriver.write_setpoint`:
`max(0.0, min(setpoint, full_scale))` with Python min/max NaN semantics. -/
def clampSetpoint (fs : ℚ) (s : PyFloat) : PyFloat :=
  PyFloat.pymax (.finite 0) (PyFloat.pymin s (.finite fs))

/-- Model of `BrooksDriver.write_setpoint`: rejected with the state unchanged when
`not self.slave or not self.slave.output` (no slave, or an empty/absent
output buffer); otherwise clamps into `[0, full_scale]`, stores the clamped
value, packs the output frame (total for any float input, since the value
packed is already clamped into binary32 range) and reports success. -/
def write_setpoint (slavePresent outputNonempty : Bool) (s : PyFloat)
    (st : DriverState) : Bool × DriverState :=
  if slavePresent && outputNonempty then
    (true, { st with setp := clampSetpoint st.full_scale s })
  else
    (false, st)

/-- Model of `BrooksDriver.get_setpoint`. -/
def get_setpoint (st : DriverState) : PyFloat := st.setp

/-- A sequence of `write_setpoint` calls (each with its own slave/output
availability), folded over the driver state. -/
def writeSeq (st : DriverState) (ops : List (Bool × Bool × PyFloat)) : DriverState :=
  ops.foldl (fun s op => (write_setpoint op.1 op.2.1 op.2.2 s).2) st

/-- Model of the `ConnectionState` enum (`src/main.py`). -/
inductive ConnectionState where
  | disconnected
  | connecting
  | connected
  | error
deriving DecidableEq

/-- The pysoem `OP_STATE` constant (EtherCAT Operational = 8). -/
def OP_STATE : ℕ := 8

/-- Outcome environment for one `EtherCATManager.connect` attempt: which
external pysoem calls raise, how many slaves discovery finds, the per-slave
scale-discovery replies, and the state reached by the final
`state_check(OP_STATE, …)`. -/
structure BusEnv where
  open_throws : Bool
  config_init_throws : Bool
  slave_count : ℕ
  sdo_replies : List SdoReply
  config_map_throws : Bool
  config_dc_throws : Bool
  safeop_check_throws : Bool
  write_state_throws : Bool
  op_check_throws : Bool
  op_check_result : ℕ

/-- Environment for one `EtherCATManager.disconnect` call: whether the cyclic
thread fails to join in time, and whether any teardown call
(zero-setpoint write, Init request, `master.close`) raises. -/
structure TeardownEnv where
  join_times_out : Bool
  teardown_throws : Bool

/-- The manager state relevant to connection claims: the connection state,
the driver list, and whether a master reference is held. -/
structure ManagerState where
  state : ConnectionState
  drivers : List DriverState
  hasMaster : Bool
deriving DecidableEq

/-- The result message of `connect`, by shape (the source formats strings). -/
inductive ConnMsg where
  | exceptionMsg
  | insufficient (found required : ℕ)
  | successOp (n : ℕ)
  | degradedState (s : ℕ)
deriving DecidableEq

/-- Model of `EtherCATManager.connect`: sets Connecting, opens the adapter, discovers
slaves, fails on `slave_count < num`, builds one driver per controller
(construction never raises), maps process data, configures DC, checks
Safe-Op (result unchecked), starts the cyclic thread, requests Op and
checks it.  Any exception funnels to the `except` clause: state Error,
result `(false, message)`.  Both final-state branches set Connected and
return success. -/
def connect (env : BusEnv) (num : ℕ) (st : ManagerState) :
    ManagerState × Bool × ConnMsg :=
  let stc := { st with state := ConnectionState.connecting }
  if env.open_throws then
    ({ stc with state := .error, hasMaster := true }, false, .exceptionMsg)
  else if env.config_init_throws then
    ({ stc with state := .error, hasMaster := true }, false, .exceptionMsg)
  else if env.slave_count < num then
    ({ stc with state := .error, hasMaster := true }, false,
      .insufficient env.slave_count num)
  else
    let drivers := (List.range num).map fun i => mkDriver (env.sdo_replies.getD i .throws)
    let std := { stc with drivers := drivers, hasMaster := true }
    if env.config_map_throws then ({ std with state := .error }, false, .exceptionMsg)
    else if env.config_dc_throws then ({ std with state := .error }, false, .exceptionMsg)
    else if env.safeop_check_throws then ({ std with state := .error }, false, .exceptionMsg)
    else if env.write_state_throws then ({ std with state := .error }, false, .exceptionMsg)
    else if env.op_check_throws then ({ std with state := .error }, false, .exceptionMsg)
    else if env.op_check_result = OP_STATE then
      ({ std with state := .connected }, true, .successOp num)
    else
      ({ std with state := .connected }, true, .degradedState env.op_check_result)

/-- Model of `EtherCATManager.disconnect`: stops and joins the cyclic thread (a join
timeout is only logged), best-effort teardown with every exception caught,
then unconditionally clears the driver list, releases the master and sets
Disconnected.  Returns the final state and whether a teardown error was
logged. -/
def disconnect (env : TeardownEnv) (st : ManagerState) : ManagerState × Bool :=
  let loggedError := st.hasMaster && env.teardown_throws
  ({ state := ConnectionState.disconnected, drivers := [], hasMaster := false },
    loggedError)

/-- State of a `DataRecorder`: the recording flag, whether a file handle is
held open, and the number of buffered rows (`_buffer`).  Rows themselves
carry no information the claims need. -/
structure RecState where
  is_recording : Bool
  file_open : Bool
  buffered : ℕ
deriving DecidableEq

/-- Model of `DataRecorder.start_recording`: opens the destination, writes the header
and flushes, sets the recording flag and clears the buffer; it performs no
already-recording check.  On an open failure the `except` clause closes
`self._file` if set (the handle of any previous session) and returns
`False`, leaving the recording flag as it was. -/
def start_recording (open_ok : Bool) (st : RecState) : Bool × RecState :=
  if open_ok then
    (true, { is_recording := true, file_open := true, buffered := 0 })
  else
    (false, { st with file_open := false })

/-- State of the `DataManager` telemetry store: per-channel bounded history
(a total function from channel index; indices `≥ num_controllers` are never
touched) and the latest-sample cache. -/
structure DMState where
  num_controllers : ℕ
  max_points : ℕ
  history : ℕ → List ControllerData
  current : ℕ → Option ControllerData

/-- Model of the append of a `collections.deque` with `maxlen = cap`: appends
on the right and evicts
from the left when the capacity is exceeded. -/
def dappend (cap : ℕ) (buf : List ControllerData) (x : ControllerData) :
    List ControllerData :=
  let b := buf ++ [x]
  if cap < b.length then b.drop (b.length - cap) else b

/-- Model of `DataManager.__init__`: empty histories, empty cache. -/
def DMState.init (num max_points : ℕ) : DMState :=
  { num_controllers := num, max_points := max_points,
    history := fun _ => [], current := fun _ => none }

/-- Model of `DataManager.update_data`: for each channel index carrying a sample this
cycle (and below `num_controllers`), overwrite the latest-sample cache and
append the sample to the history deques of that channel; all other channels
are untouched.  The loop in the source writes each index at most once, so it equals
this per-index form. -/
def update_data (st : DMState) (batch : List (Option ControllerData)) : DMState :=
  { st with
    current := fun i =>
      if i < st.num_controllers then
        match batch.getD i none with
        | some d => some d
        | none => st.current i
      else st.current i,
    history := fun i =>
      if i < st.num_controllers then
        match batch.getD i none with
        | some d => dappend st.max_points (st.history i) d
        | none => st.history i
      else st.history i }

/-- The last `cap` elements of a list (all of it when shorter). -/
def lastN (cap : ℕ) (l : List α) : List α := l.drop (l.length - cap)

/-- The samples a batch sequence delivers to channel `i` of a store with
`num` channels, in temporal order. -/
def channelInputs (num i : ℕ) (batches : List (List (Option ControllerData))) :
    List ControllerData :=
  if i < num then batches.filterMap (fun b => b.getD i none) else []

/-! ### Concrete fixtures used by witnesses and counterexamples -/

/-- A 13-byte input frame: status byte 0, flow raw = 5000.0
(bytes `0x459C4000` little-endian), pressure = 0.0, temperature = 0.0. -/
def frameRaw5000 : List ℕ := [0, 0x00, 0x40, 0x9C, 0x45, 0, 0, 0, 0, 0, 0, 0, 0]

/-- A driver with the default full scale 30000.0 and setpoint 0.0, exactly
as constructed when scale discovery raises. -/
def driver30000 : DriverState := { full_scale := 30000, setp := .finite 0 }

/-- A connect environment in which every external call succeeds, two slaves
are found, but the final `state_check(OP_STATE)` reports Safe-Operational
(4) instead of Operational (8). -/
def envSafeOpOnly : BusEnv :=
  { open_throws := false, config_init_throws := false, slave_count := 2,
    sdo_replies := [], config_map_throws := false, config_dc_throws := false,
    safeop_check_throws := false, write_state_throws := false,
    op_check_throws := false, op_check_result := 4 }

/-- The manager state before any connect attempt. -/
def mgrIdle : ManagerState :=
  { state := .disconnected, drivers := [], hasMaster := false }

/-- The setpoint invariant of a channel: the stored setpoint is a finite
value within `[0, full_scale]`. -/
def SetpInRange (st : DriverState) : Prop :=
  ∃ q : ℚ, st.setp = .finite q ∧ 0 ≤ q ∧ q ≤ st.full_scale

/-! ## Helper lemmas -/

theorem decodeF32LE_raw5000 : decodeF32LE [0x00, 0x40, 0x9C, 0x45] = .finite 5000 := by
  norm_num [decodeF32LE, decodeF32bits, leU32]

theorem decodeF32LE_zero : decodeF32LE [0, 0, 0, 0] = .finite 0 := by
  norm_num [decodeF32LE, decodeF32bits, leU32]

theorem decode_frameRaw5000_flow :
    decodeF32LE ((frameRaw5000.drop 1).take 4) = .finite 5000 :=
  decodeF32LE_raw5000

theorem decode_frameRaw5000_pressure :
    decodeF32LE ((frameRaw5000.drop 5).take 4) = .finite 0 :=
  decodeF32LE_zero

theorem decode_frameRaw5000_temperature :
    decodeF32LE ((frameRaw5000.drop 9).take 4) = .finite 0 :=
  decodeF32LE_zero

theorem clampSetpoint_range (fs : ℚ) (h : 0 ≤ fs) (s : PyFloat) :
    ∃ q : ℚ, clampSetpoint fs s = .finite q ∧ 0 ≤ q ∧ q ≤ fs := by
  cases s with
  | finite a =>
    by_cases h1 : fs < a
    · by_cases h2 : (0 : ℚ) < fs
      · exact ⟨fs, by simp [clampSetpoint, PyFloat.pymin, PyFloat.pymax,
          PyFloat.lt, h1, h2], h, le_refl fs⟩
      · exact ⟨0, by simp [clampSetpoint, PyFloat.pymin, PyFloat.pymax,
          PyFloat.lt, h1, h2], le_refl 0, h⟩
    · by_cases h2 : (0 : ℚ) < a
      · exact ⟨a, by simp [clampSetpoint, PyFloat.pymin, PyFloat.pymax,
          PyFloat.lt, h1, h2], le_of_lt h2, le_of_not_lt h1⟩
      · exact ⟨0, by simp [clampSetpoint, PyFloat.pymin, PyFloat.pymax,
          PyFloat.lt, h1, h2], le_refl 0, h⟩
  | inf =>
    by_cases h2 : (0 : ℚ) < fs
    · exact ⟨fs, by simp [clampSetpoint, PyFloat.pymin, PyFloat.pymax,
        PyFloat.lt, h2], h, le_refl fs⟩
    · exact ⟨0, by simp [clampSetpoint, PyFloat.pymin, PyFloat.pymax,
        PyFloat.lt, h2], le_refl 0, h⟩
  | ninf =>
    exact ⟨0, by simp [clampSetpoint, PyFloat.pymin, PyFloat.pymax,
      PyFloat.lt], le_refl 0, h⟩
  | nan =>
    exact ⟨0, by simp [clampSetpoint, PyFloat.pymin, PyFloat.pymax,
      PyFloat.lt], le_refl 0, h⟩

theorem read_full_scale_ge_one (reply : SdoReply) (d : ℚ) (hd : 1 ≤ d) :
    1 ≤ (read_full_scale reply d).1 := by
  cases reply with
  | throws => simpa [read_full_scale] using hd
  | ok bs =>
    by_cases hl : 4 ≤ bs.length
    · rcases hdec : decodeF32LE bs with q | _ | _ | _
      · by_cases hr : 1 ≤ q ∧ q ≤ 1000000
        · simp only [read_full_scale, hl, hdec, hr, if_true]
          exact hr.1
        · simpa [read_full_scale, hl, hdec, hr] using hd
      all_goals simpa [read_full_scale, hl, hdec] using hd
    · simpa [read_full_scale, hl] using hd

theorem mkDriver_full_scale_ge_one (reply : SdoReply) :
    1 ≤ (mkDriver reply).full_scale :=
  read_full_scale_ge_one reply 30000 (by norm_num)

theorem write_setpoint_preserves_range (sp ob : Bool) (s : PyFloat)
    (st : DriverState) (hfs : 0 ≤ st.full_scale) (h : SetpInRange st) :
    SetpInRange (write_setpoint sp ob s st).2 ∧
    (write_setpoint sp ob s st).2.full_scale = st.full_scale := by
  constructor
  · unfold write_setpoint
    by_cases hg : sp && ob
    · simpa [hg, SetpInRange] using clampSetpoint_range st.full_scale hfs s
    · simpa [hg] using h
  · unfold write_setpoint
    by_cases hg : sp && ob <;> simp [hg]

theorem writeSeq_preserves_range (ops : List (Bool × Bool × PyFloat)) :
    ∀ st : DriverState, 0 ≤ st.full_scale → SetpInRange st →
      SetpInRange (writeSeq st ops) ∧
      (writeSeq st ops).full_scale = st.full_scale := by
  induction ops with
  | nil => intro st _ h; exact ⟨h, rfl⟩
  | cons op ops ih =>
    intro st hfs h
    obtain ⟨h', hfs'⟩ := write_setpoint_preserves_range op.1 op.2.1 op.2.2 st hfs h
    have := ih (write_setpoint op.1 op.2.1 op.2.2 st).2 (hfs' ▸ hfs) h'
    simpa [writeSeq, hfs'] using this

theorem length_lastN (cap : ℕ) (l : List α) : (lastN cap l).length ≤ cap := by
  simp only [lastN, List.length_drop]
  omega

theorem dappend_lastN (cap : ℕ) (l : List ControllerData) (x : ControllerData) :
    dappend cap (lastN cap l) x = lastN cap (l ++ [x]) := by
  unfold dappend lastN
  simp only [List.length_append, List.length_drop, List.length_cons,
    List.length_nil]
  by_cases hc : cap ≤ l.length
  · have hble : cap < l.length - (l.length - cap) + 1 := by omega
    simp only [hble, if_true]
    by_cases h0 : cap = 0
    · subst h0
      simp
    · have h1 : 1 ≤ (l.drop (l.length - cap)).length := by
        simp only [List.length_drop]; omega
      have h2 : l.length + 1 - cap ≤ l.length := by omega
      rw [show l.length - (l.length - cap) + 1 - cap = 1 by omega,
        List.drop_append_of_le_length h1, List.drop_drop,
        List.drop_append_of_le_length h2,
        show l.length - cap + 1 = l.length + 1 - cap by omega]
  · have hble : ¬ cap < l.length - (l.length - cap) + 1 := by omega
    simp only [hble, if_false]
    rw [show l.length - cap = 0 by omega, show l.length + 1 - cap = 0 by omega]
    simp

theorem foldl_dappend_lastN (cap : ℕ) (obs : List (Option ControllerData)) :
    ∀ l : List ControllerData,
      obs.foldl (fun buf ob => match ob with
          | some d => dappend cap buf d
          | none => buf) (lastN cap l)
        = lastN cap (l ++ obs.filterMap id) := by
  induction obs with
  | nil => intro l; simp
  | cons b bs ih =>
    intro l
    cases b with
    | none => simpa using ih l
    | some d =>
      simp only [List.foldl_cons, List.filterMap_cons_some, id]
      rw [dappend_lastN]
      simpa [List.append_assoc] using ih (l ++ [d])

theorem update_data_history_eq (st : DMState) (b : List (Option ControllerData))
    (i : ℕ) :
    (update_data st b).history i =
      if i < st.num_controllers then
        match b.getD i none with
        | some d => dappend st.max_points (st.history i) d
        | none => st.history i
      else st.history i := rfl

theorem foldl_update_history (num maxp i : ℕ)
    (batches : List (List (Option ControllerData))) :
    ∀ (st : DMState) (l : List ControllerData),
      st.num_controllers = num → st.max_points = maxp →
      st.history i = lastN maxp l →
      (batches.foldl update_data st).history i =
        lastN maxp (l ++ (if i < num then
          batches.filterMap (fun b => b.getD i none) else [])) := by
  induction batches with
  | nil => intro st l _ _ h; simpa using h
  | cons b bs ih =>
    intro st l hnum hmax hhist
    simp only [List.foldl_cons]
    have hnum' : (update_data st b).num_controllers = num := hnum
    have hmax' : (update_data st b).max_points = maxp := hmax
    by_cases hi : i < num
    · cases hb : b.getD i none with
      | none =>
        have hb2 : b[i]?.getD none = none := by simpa [List.getD] using hb
        have h' : (update_data st b).history i = lastN maxp l := by
          rw [update_data_history_eq, hnum, if_pos hi, hb]
          exact hhist
        rw [ih (update_data st b) l hnum' hmax' h', if_pos hi, if_pos hi,
          show List.filterMap (fun bb => bb.getD i none) (b :: bs)
              = List.filterMap (fun bb => bb.getD i none) bs by
            rw [List.filterMap_cons]; simp [hb2]]
      | some d =>
        have hb2 : b[i]?.getD none = some d := by simpa [List.getD] using hb
        have h' : (update_data st b).history i = lastN maxp (l ++ [d]) := by
          rw [update_data_history_eq, hnum, if_pos hi, hb]
          show dappend st.max_points (st.history i) d = lastN maxp (l ++ [d])
          rw [hhist, hmax, dappend_lastN]
        rw [ih (update_data st b) (l ++ [d]) hnum' hmax' h', if_pos hi,
          if_pos hi,
          show List.filterMap (fun bb => bb.getD i none) (b :: bs)
              = d :: List.filterMap (fun bb => bb.getD i none) bs by
            rw [List.filterMap_cons]; simp [hb2]]
        simp [List.append_assoc]
    · have h' : (update_data st b).history i = lastN maxp l := by
        rw [update_data_history_eq, hnum, if_neg hi]
        exact hhist
      rw [ih (update_data st b) l hnum' hmax' h', if_neg hi, if_neg hi]

/-! ## Claim theorems -/

/-- C1 (counterexample).  With full scale 30000 and raw flow bytes encoding
5000.0, `read_data` yields flow `(5000/100) × 30000 / 100 = 15000.0`, not
the 1500.0 asserted by the example in the claim. -/
theorem read_data_raw5000_flow_is_15000_not_1500 :
    (read_data 0 (some frameRaw5000) driver30000).map (·.flow)
      = some (.finite 15000) ∧
    some (PyFloat.finite 15000) ≠ some (PyFloat.finite 1500) := by
  constructor
  · norm_num [read_data, frameRaw5000, driver30000, decodeF32LE, decodeF32bits,
      leU32, PyFloat.mulQ]
  · simp only [ne_eq, Option.some.injEq, PyFloat.finite.injEq]
    norm_num

/-- C1 (amended).  For every input frame of at least 13 bytes whose bytes
`[1:5)` decode as a finite little-endian float `raw`, decoding yields a
sample whose flow equals `(raw/100/100) × full_scale` exactly (in the exact
rational model of float arithmetic), whose pressure is the little-endian
float at bytes `[5:9)` and whose temperature the one at bytes `[9:13)`;
in particular with `full_scale = 30000` and `raw = 5000.0` the flow is
15000.0 (not 1500.0). -/
theorem read_data_flow_formula (now : ℚ) (bs : List ℕ) (st : DriverState) (raw : ℚ)
    (hlen : 13 ≤ bs.length)
    (hraw : decodeF32LE ((bs.drop 1).take 4) = .finite raw) :
    read_data now (some bs) st =
      some { timestamp := now,
             flow := .finite (raw / 100 / 100 * st.full_scale),
             pressure := decodeF32LE ((bs.drop 5).take 4),
             temperature := decodeF32LE ((bs.drop 9).take 4),
             setpoint := st.setp } := by
  have hnl : ¬ bs.length < 13 := by omega
  simp only [read_data, hnl, if_false, hraw, PyFloat.mulQ, Option.some.injEq,
    ControllerData.mk.injEq, PyFloat.finite.injEq, true_and, and_true]
  ring

/-- Witness for C1: the 13-byte frame with raw = 5000.0 against the default
full scale 30000.0 decodes to flow 15000.0, pressure 0.0, temperature 0.0. -/
theorem read_data_flow_formula_witness :
    read_data 0 (some frameRaw5000) driver30000 =
      some { timestamp := 0, flow := .finite 15000, pressure := .finite 0,
             temperature := .finite 0, setpoint := .finite 0 } := by
  have h := read_data_flow_formula 0 frameRaw5000 driver30000 5000
    (by decide) decode_frameRaw5000_flow
  rw [h, decode_frameRaw5000_pressure, decode_frameRaw5000_temperature]
  norm_num [driver30000]

/-- C3.  When every external call of the connect sequence succeeds, at least
the expected number of slaves is found, but the final state check does not
report Operational, `connect` still returns success with the degraded
status message and sets the state to Connected, not Error. -/
theorem connect_degraded_still_connected (env : BusEnv) (num : ℕ) (st : ManagerState)
    (h1 : env.open_throws = false) (h2 : env.config_init_throws = false)
    (h3 : num ≤ env.slave_count) (h4 : env.config_map_throws = false)
    (h5 : env.config_dc_throws = false) (h6 : env.safeop_check_throws = false)
    (h7 : env.write_state_throws = false) (h8 : env.op_check_throws = false)
    (h9 : env.op_check_result ≠ OP_STATE) :
    (connect env num st).1.state = .connected ∧
    (connect env num st).2.1 = true ∧
    (connect env num st).2.2 = .degradedState env.op_check_result := by
  have hc : ¬ env.slave_count < num := by omega
  simp [connect, h1, h2, hc, h4, h5, h6, h7, h8, h9]

/-- Witness for C3: two slaves found, everything succeeds, final state check
returns Safe-Operational (4) instead of Operational (8). -/
theorem connect_degraded_still_connected_witness :
    (connect envSafeOpOnly 2 mgrIdle).1.state = .connected ∧
    (connect envSafeOpOnly 2 mgrIdle).2.1 = true ∧
    (connect envSafeOpOnly 2 mgrIdle).2.2 = .degradedState 4 :=
  connect_degraded_still_connected envSafeOpOnly 2 mgrIdle rfl rfl
    (by decide) rfl rfl rfl rfl rfl (by decide)

/-- C4 (counterexample).  A `write_setpoint(nan)` call does not fail: the Python
`max(0.0, min(nan, 30000.0))` evaluates to `0.0`, so the call stores 0.0
over the previous setpoint 5.0 and returns `True`, contradicting the claim
that non-finite inputs are rejected with the setpoint unchanged. -/
theorem write_setpoint_nan_accepted :
    write_setpoint true true .nan { full_scale := 30000, setp := .finite 5 }
      = (true, { full_scale := 30000, setp := .finite 0 }) ∧
    PyFloat.finite 0 ≠ PyFloat.finite 5 := by
  constructor
  · simp [write_setpoint, clampSetpoint, PyFloat.pymax, PyFloat.pymin, PyFloat.lt]
  · simp only [ne_eq, PyFloat.finite.injEq]
    norm_num

/-- C4 (amended).  Non-finite setpoints are not rejected: with the output
buffer available, NaN and -∞ are clamped to 0.0, +∞ to `full_scale`, the
clamped value replaces the stored setpoint and the call returns `True`. -/
theorem write_setpoint_nonfinite_clamped (st : DriverState)
    (h : 0 ≤ st.full_scale) :
    write_setpoint true true .nan st = (true, { st with setp := .finite 0 }) ∧
    write_setpoint true true .ninf st = (true, { st with setp := .finite 0 }) ∧
    write_setpoint true true .inf st
      = (true, { st with setp := .finite st.full_scale }) := by
  refine ⟨?_, ?_, ?_⟩ <;>
    simp only [write_setpoint, clampSetpoint, PyFloat.pymax, PyFloat.pymin,
      PyFloat.lt, Bool.and_self, if_true]
  · rfl
  · rfl
  · rcases lt_or_eq_of_le h with h1 | h1
    · simp [h1]
    · simp [← h1]

/-- Witness for C4: the three non-finite inputs against the default driver. -/
theorem write_setpoint_nonfinite_clamped_witness :
    write_setpoint true true .nan driver30000
        = (true, { driver30000 with setp := .finite 0 }) ∧
    write_setpoint true true .ninf driver30000
        = (true, { driver30000 with setp := .finite 0 }) ∧
    write_setpoint true true .inf driver30000
        = (true, { driver30000 with setp := .finite 30000 }) :=
  write_setpoint_nonfinite_clamped driver30000 (by decide)

/-- C5.  `read_data` returns no sample exactly when the input frame is
absent or shorter than 13 bytes; the embedding is a total function, so no
exception can escape to the caller. -/
theorem read_data_none_iff (now : ℚ) (input : Option (List ℕ)) (st : DriverState) :
    read_data now input st = none ↔
      input = none ∨ ∃ bs, input = some bs ∧ bs.length < 13 := by
  cases input with
  | none => simp [read_data]
  | some bs =>
    by_cases h : bs.length < 13 <;> simp [read_data, h]

/-- C7 (counterexample).  `start_recording` performs no already-recording
check: invoked while a session is active (and with an openable
destination) it returns `True`, not failure. -/
theorem start_recording_while_recording_succeeds :
    start_recording true { is_recording := true, file_open := true, buffered := 3 }
      = (true, { is_recording := true, file_open := true, buffered := 0 }) ∧
    (true : Bool) ≠ false := by
  exact ⟨rfl, by decide⟩

/-- C7 (amended).  `start_recording` fails exactly when the destination
cannot be opened: on an open failure it returns `False` and leaves the
recording flag unchanged (in particular inactive if it was inactive); on
success it returns `True` and activates recording, with no check that a
session was already active. -/
theorem start_recording_fails_only_on_open_failure (st : RecState) :
    (start_recording false st).1 = false ∧
    (start_recording false st).2.is_recording = st.is_recording ∧
    (start_recording true st).1 = true ∧
    (start_recording true st).2.is_recording = true := by
  simp [start_recording]

/-- C9.  `disconnect` always ends with state Disconnected, the driver list
cleared and the master reference released, whatever the teardown
environment does; run on an already-disconnected manager it is a no-op
that ends Disconnected and logs no error. -/
theorem disconnect_always_terminal (env env2 : TeardownEnv) (st : ManagerState) :
    (disconnect env st).1.state = .disconnected ∧
    (disconnect env st).1.drivers = [] ∧
    (disconnect env st).1.hasMaster = false ∧
    disconnect env2 (disconnect env st).1 = ((disconnect env st).1, false) := by
  simp [disconnect]

/-- C2.  Starting from driver construction (any scale-discovery outcome),
after any sequence of `write_setpoint` calls with arbitrary float arguments
(negative, above-scale, non-finite included) the stored setpoint, as
returned by `get_setpoint`, is a finite value within `[0, full_scale]`;
in particular `write_setpoint(-5)` with full scale 30000 stores 0.0 and
`write_setpoint(50000)` stores 30000.0. -/
theorem setpoint_always_in_range (reply : SdoReply)
    (ops : List (Bool × Bool × PyFloat)) :
    (∃ q : ℚ, get_setpoint (writeSeq (mkDriver reply) ops) = .finite q ∧
        0 ≤ q ∧ q ≤ (writeSeq (mkDriver reply) ops).full_scale) ∧
    get_setpoint (writeSeq driver30000 [(true, true, .finite (-5))])
      = .finite 0 ∧
    get_setpoint (writeSeq driver30000 [(true, true, .finite 50000)])
      = .finite 30000 := by
  refine ⟨?_, ?_, ?_⟩
  · have hfs : (0 : ℚ) ≤ (mkDriver reply).full_scale :=
      le_trans (by norm_num) (mkDriver_full_scale_ge_one reply)
    have h0 : SetpInRange (mkDriver reply) := ⟨0, rfl, le_refl 0, hfs⟩
    exact (writeSeq_preserves_range ops (mkDriver reply) hfs h0).1
  · decide
  · decide

/-- C6.  For every batch sequence fed to the telemetry store, each
history buffer of each channel never exceeds `max_points` entries, and it equals
exactly the last `max_points` samples delivered to that channel in temporal
(insertion) order — so after `capacity + k` appends it holds exactly the
last `capacity` samples. -/
theorem history_bounded_and_temporal (num maxp i : ℕ)
    (batches : List (List (Option ControllerData))) :
    ((batches.foldl update_data (DMState.init num maxp)).history i).length
        ≤ maxp ∧
    (batches.foldl update_data (DMState.init num maxp)).history i
      = lastN maxp (channelInputs num i batches) := by
  have h := foldl_update_history num maxp i batches (DMState.init num maxp) []
    rfl rfl (by simp [DMState.init, lastN])
  have h2 : (batches.foldl update_data (DMState.init num maxp)).history i
      = lastN maxp (channelInputs num i batches) := by
    rw [h, channelInputs]
    by_cases hi : i < num <;> simp [hi]
  exact ⟨h2 ▸ length_lastN maxp _, h2⟩

/-- C8.  Scale discovery accepts exactly the replies of at least 4 bytes
whose little-endian float is finite and within `[1.0, 1000000.0]`, storing
it as the full scale; in every other case — short or missing reply,
out-of-range or non-finite value, read exception — the default 30000.0 is
retained, and driver construction still succeeds, with that full scale and
a zero setpoint. -/
theorem read_full_scale_accepts_iff (reply : SdoReply) :
    (∀ bs q, reply = .ok bs → 4 ≤ bs.length → decodeF32LE bs = .finite q →
      1 ≤ q → q ≤ 1000000 → read_full_scale reply 30000 = (q, true)) ∧
    ((read_full_scale reply 30000).2 = true →
      ∃ bs q, reply = .ok bs ∧ 4 ≤ bs.length ∧ decodeF32LE bs = .finite q ∧
        1 ≤ q ∧ q ≤ 1000000 ∧ (read_full_scale reply 30000).1 = q) ∧
    ((read_full_scale reply 30000).2 = false →
      (read_full_scale reply 30000).1 = 30000) ∧
    (mkDriver reply).full_scale = (read_full_scale reply 30000).1 ∧
    (mkDriver reply).setp = .finite 0 := by
  refine ⟨?_, ?_, ?_, rfl, rfl⟩
  · rintro bs q rfl hl hdec h1 h2
    simp [read_full_scale, hl, hdec, h1, h2]
  · cases reply with
    | throws => simp [read_full_scale]
    | ok bs =>
      by_cases hl : 4 ≤ bs.length
      · rcases hdec : decodeF32LE bs with q | _ | _ | _
        · by_cases hr : 1 ≤ q ∧ q ≤ 1000000
          · intro _
            refine ⟨bs, q, rfl, hl, hdec, hr.1, hr.2, ?_⟩
            simp [read_full_scale, hl, hdec, hr]
          · simp [read_full_scale, hl, hdec, hr]
        all_goals simp [read_full_scale, hl, hdec]
      · simp [read_full_scale, hl]
  · cases reply with
    | throws => intro _; simp [read_full_scale]
    | ok bs =>
      by_cases hl : 4 ≤ bs.length
      · rcases hdec : decodeF32LE bs with q | _ | _ | _
        · by_cases hr : 1 ≤ q ∧ q ≤ 1000000
          · simp [read_full_scale, hl, hdec, hr]
          · intro _; simp [read_full_scale, hl, hdec, hr]
        all_goals intro _; simp [read_full_scale, hl, hdec]
      · intro _; simp [read_full_scale, hl]

/-- C10.  `write_setpoint` with no slave, or with an empty output buffer,
returns `False` and leaves the stored setpoint (the whole driver state)
unchanged: setpoints sent before process-data mapping are rejected, not
stored. -/
theorem write_setpoint_no_output_rejected (sp ob : Bool) (s : PyFloat)
    (st : DriverState) :
    write_setpoint false ob s st = (false, st) ∧
    write_setpoint sp false s st = (false, st) := by
  constructor <;> simp [write_setpoint]

end Brooks
